import Mathlib

/-!
Verification development for the cpufreq governor common core
(`drivers/cpufreq/cpufreq_governor.c`).

The C code is shallowly embedded: machine integers are modelled as `Nat`
with explicit reduction modulo `2 ^ 32` (`unsigned int`) respectively
`2 ^ 64` (`u64`) exactly where the C arithmetic truncates; per-CPU data
that the kernel keeps in a per-CPU array is modelled as an association
list owned by the policy domain; stateful functions are modelled as
explicit state-passing functions; external collaborators (the idle-time
source, the `nice` statistics, `cputime_to_usecs`, the frequency-change
driver) are modelled as parameters or as emitted call events.
-/

namespace CpufreqGov

/-- Modulus of the C `unsigned int` type (32 bits). -/
def U32 : Nat := 2 ^ 32

/-- Modulus of the C `u64` type (64 bits). -/
def U64 : Nat := 2 ^ 64

/-- Wrapping 64-bit subtraction `a - b` as performed on `u64` operands. -/
def wsub64 (a b : Nat) : Nat := (a % U64 + (U64 - b % U64)) % U64

/-- Reinterpret a 64-bit value as a signed `s64`, as the C cast
`(s64)delta_ns` does. -/
def toS64 (x : Nat) : Int :=
  if x % U64 < 2 ^ 63 then ((x % U64 : Nat) : Int)
  else ((x % U64 : Nat) : Int) - ((U64 : Nat) : Int)

/-- Error codes actually returned by the C code.  The specification's
error taxonomy maps onto them: `AlreadyInitialized` and `Busy` surface as
`EBUSY`, `InvalidState` and `InvalidArgument` surface as `EINVAL`, and
`ResourceExhausted` surfaces as `ENOMEM`. -/
inductive Errno where
  | EINVAL
  | EBUSY
  | ENOMEM
deriving DecidableEq, Repr

/-- Relations accepted by the frequency-change driver
(`CPUFREQ_RELATION_H` = highest frequency at or below the target, i.e.
"at most"; `CPUFREQ_RELATION_L` = lowest frequency at or above the
target, i.e. "at least"). -/
inductive FreqRelation where
  | H
  | L
deriving DecidableEq, Repr

/-- Events dispatched through `cpufreq_governor_dbs`. -/
inductive GovEvent where
  | POLICY_INIT
  | POLICY_EXIT
  | START
  | STOP
  | LIMITS
deriving DecidableEq, Repr

/-- `struct cpu_dbs_info`: the per-processor idle/wall/nice snapshot and
the cached previous load. -/
structure CpuDbsInfo where
  prev_cpu_idle : Nat
  prev_cpu_wall : Nat
  prev_cpu_nice : Nat
  prev_load : Nat
deriving DecidableEq, Repr

/-- The slice of `struct cpufreq_policy` this core reads: current
frequency, bounds, the member processor ids and hardware transition
latency. -/
structure CpufreqPolicy where
  cur : Nat
  min : Nat
  max : Nat
  cpus : List Nat
  transition_latency : Nat
deriving DecidableEq, Repr

/-- `struct policy_dbs_info`: per-domain sampling state.  The per-CPU
trackers of the domain's processors are carried as an association list
`cpus` (processor id, tracker), standing for the slice of the kernel's
per-CPU array `cpu_dbs` that belongs to `policy->cpus`. -/
structure PolicyDbsInfo where
  cpus : List (Nat × CpuDbsInfo)
  sample_delay_ns : Nat
  last_sample_time : Nat
  rate_mult : Nat
  is_shared : Bool
  work_in_progress : Bool
  work_count : Nat
deriving DecidableEq, Repr

/-- `struct dbs_data` together with its embedded `gov_attr_set`
(`usage_count` is the attribute set's active-domain count). -/
structure DbsData where
  sampling_rate : Nat
  min_sampling_rate : Nat
  ignore_nice_load : Bool
  io_is_busy : Bool
  usage_count : Nat
deriving DecidableEq, Repr

/-- External collaborators consumed by the load engine:
`idle j io` models `get_cpu_idle_time(j, &wall, io)` returning
`(idle_time, wall_time)`; `nice j` models
`kcpustat_cpu(j).cpustat[CPUTIME_NICE]`; `c2u` models
`cputime_to_usecs`. -/
structure Env where
  idle : Nat → Bool → Nat × Nat
  nice : Nat → Nat
  c2u : Nat → Nat

/-- The `wall_time` delta computed in `dbs_update` for processor `j`:
u64 wrapping subtraction of the previous snapshot from the current wall
counter, truncated to `unsigned int`. -/
def wallDelta (env : Env) (io : Bool) (j : Nat) (c : CpuDbsInfo) : Nat :=
  wsub64 (env.idle j io).2 c.prev_cpu_wall % U32

/-- The `idle_time` delta computed in `dbs_update` for processor `j`,
including the `ignore_nice_load` adjustment
`idle_time += cputime_to_usecs(cur_nice - prev_cpu_nice)` (performed in
`unsigned int`, hence the truncation). -/
def idleDelta (env : Env) (ignore_nice io : Bool) (j : Nat) (c : CpuDbsInfo) : Nat :=
  let base := wsub64 (env.idle j io).1 c.prev_cpu_idle % U32
  if ignore_nice then
    (base + env.c2u (wsub64 (env.nice j) c.prev_cpu_nice)) % U32
  else
    base

/-- The per-processor body of the `for_each_cpu` loop of `dbs_update`:
refresh the snapshot, skip the processor (`none`) when
`!wall_time || wall_time < idle_time`, otherwise either reuse the cached
load once (idle-wake heuristic, when `wall_time > 2 * sampling_rate` and
the cache is non-zero) or compute
`load = 100 * (wall_time - idle_time) / wall_time` and cache it. -/
def cpuUpdate (env : Env) (ignore_nice io : Bool) (sampling_rate j : Nat)
    (c : CpuDbsInfo) : CpuDbsInfo × Option Nat :=
  let cur := env.idle j io
  let wall_time := wallDelta env io j c
  let idle_time := idleDelta env ignore_nice io j c
  let c' : CpuDbsInfo :=
    { prev_cpu_idle := cur.1
      prev_cpu_wall := cur.2
      prev_cpu_nice := if ignore_nice then env.nice j else c.prev_cpu_nice
      prev_load := c.prev_load }
  if wall_time = 0 ∨ wall_time < idle_time then
    (c', none)
  else if 2 * sampling_rate % U32 < wall_time ∧ c.prev_load ≠ 0 then
    ({ c' with prev_load := 0 }, some c.prev_load)
  else
    let load := 100 * (wall_time - idle_time) % U32 / wall_time
    ({ c' with prev_load := load }, some load)

/-- The `for_each_cpu` loop of `dbs_update`, threading the `max_load`
accumulator (`if (load > max_load) max_load = load`). -/
def dbsUpdateLoop (env : Env) (ignore_nice io : Bool) (sampling_rate : Nat) :
    List (Nat × CpuDbsInfo) → Nat → List (Nat × CpuDbsInfo) × Nat
  | [], max_load => ([], max_load)
  | (j, c) :: rest, max_load =>
      let r := cpuUpdate env ignore_nice io sampling_rate j c
      let m := match r.2 with
        | none => max_load
        | some load => if max_load < load then load else max_load
      let rest' := dbsUpdateLoop env ignore_nice io sampling_rate rest m
      ((j, r.1) :: rest'.1, rest'.2)

/-- `dbs_update(policy)`: apply the rate multiplier to the sampling rate
(`unsigned int` product), walk the domain's processors and return the
updated trackers plus the maximal load. -/
def dbs_update (env : Env) (dbs : DbsData) (pd : PolicyDbsInfo) :
    PolicyDbsInfo × Nat :=
  let sampling_rate := dbs.sampling_rate * pd.rate_mult % U32
  let r := dbsUpdateLoop env dbs.ignore_nice_load dbs.io_is_busy sampling_rate pd.cpus 0
  ({ pd with cpus := r.1 }, r.2)

/-- The individual loads computed for one sample: one entry per
processor that is not skipped. -/
def cpuLoads (env : Env) (ignore_nice io : Bool) (sampling_rate : Nat)
    (l : List (Nat × CpuDbsInfo)) : List Nat :=
  l.filterMap fun e => (cpuUpdate env ignore_nice io sampling_rate e.1 e.2).2

/-- Concrete environment used to exercise the load engine. -/
def envW : Env :=
  { idle := fun j _ => (20 + 10 * j, 100 + 100 * j)
    nice := fun _ => 5
    c2u := fun x => x }

/-- Concrete per-domain state used to exercise the load engine. -/
def pdW : PolicyDbsInfo :=
  { cpus := [(0, ⟨0, 0, 0, 0⟩), (1, ⟨0, 0, 0, 50⟩)]
    sample_delay_ns := 0
    last_sample_time := 0
    rate_mult := 1
    is_shared := true
    work_in_progress := false
    work_count := 0 }

/-- Concrete tunables used to exercise the load engine. -/
def dbsW : DbsData :=
  { sampling_rate := 10
    min_sampling_rate := 10
    ignore_nice_load := false
    io_is_busy := false
    usage_count := 1 }

def NSEC_PER_USEC : Nat := 1000

/-- Modelled from the spec: `gov_update_sample_delay` is defined in
`cpufreq_governor.h`, which is not among the supplied sources.  Per the
specification it recomputes the next-sample deadline (`sample_delay`,
kept in nanoseconds) from a microseconds delay; a delay of 0 forces the
deadline to be recomputed at the next fast-path invocation. -/
def gov_update_sample_delay (pd : PolicyDbsInfo) (delay_us : Nat) : PolicyDbsInfo :=
  { pd with sample_delay_ns := delay_us * NSEC_PER_USEC }

/-- `store_sampling_rate`: the input buffer is represented by the
outcome of `sscanf(buf, "%u", &rate)` (`none` when it does not parse as
a single unsigned integer).  On success the rate is clamped to
`min_sampling_rate` from below and every registered domain's sample
delay is forced to 0 under its timer lock; the sysfs `count` is
returned. -/
def store_sampling_rate (dbs : DbsData) (pds : List PolicyDbsInfo)
    (parsed : Option Nat) (count : Nat) :
    (Except Errno Nat) × DbsData × List PolicyDbsInfo :=
  match parsed with
  | none => (.error .EINVAL, dbs, pds)
  | some rate =>
      let dbs' := { dbs with sampling_rate := max rate dbs.min_sampling_rate }
      let pds' := pds.map fun pd => gov_update_sample_delay pd 0
      (.ok count, dbs', pds')

/-- `governor_store`: attribute writes are dispatched to the
attribute-specific `store` callback only while the attribute set has a
non-zero usage count (at least one active domain attached); the final
`Bool` records whether the callback ran. -/
def governor_store (dbs : DbsData) (pds : List PolicyDbsInfo)
    (storeFn : DbsData → List PolicyDbsInfo →
      (Except Errno Nat) × DbsData × List PolicyDbsInfo) :
    (Except Errno Nat) × DbsData × List PolicyDbsInfo × Bool :=
  if dbs.usage_count ≠ 0 then
    let r := storeFn dbs pds
    (r.1, r.2.1, r.2.2, true)
  else
    (.error .EBUSY, dbs, pds, false)

/-- `cpufreq_governor_limits`: re-clamp the current frequency into the
new bounds via the frequency-change driver (`__cpufreq_driver_target`
invocations are returned as a list of (target, relation) call events)
and force the sample delay to 0, all under the domain's timer lock. -/
def cpufreq_governor_limits (policy : CpufreqPolicy) (pd : PolicyDbsInfo) :
    PolicyDbsInfo × List (Nat × FreqRelation) :=
  let calls : List (Nat × FreqRelation) :=
    if policy.max < policy.cur then [(policy.max, FreqRelation.H)]
    else if policy.cur < policy.min then [(policy.min, FreqRelation.L)]
    else []
  (gov_update_sample_delay pd 0, calls)

/-- `gov_set_update_util`: arm the sampling trigger with the given
delay, reset `last_sample_time` to 0, and (externally) register the
per-CPU utilization-update hooks. -/
def gov_set_update_util (pd : PolicyDbsInfo) (delay_us : Nat) : PolicyDbsInfo :=
  let pd' := gov_update_sample_delay pd delay_us
  { pd' with last_sample_time := 0 }

/-- The elapsed-time check of `dbs_update_util_handler`:
`delta_ns = time - lst` on `u64`, then `(s64)delta_ns <
sample_delay_ns` causes an early return (`false`); `true` means the
check passes. -/
def fastPathElapsedOk (lst delay_ns time : Nat) : Bool :=
  if toS64 (wsub64 time lst) < (delay_ns : Int) then false else true

/-- `cpufreq_governor_start`: fail with `EINVAL` when the current
frequency is unknown (`!policy->cur`); otherwise compute `is_shared`,
reset the rate multiplier, re-snapshot every member processor's
idle/wall (and, under `ignore_nice_load`, nice) counters, clear every
cached `prev_load` so the first `dbs_update` recomputes the load, invoke
the governor-specific start callback (external), and arm the sampling
trigger with the current sampling rate. -/
def cpufreq_governor_start (env : Env) (policy : CpufreqPolicy) (dbs : DbsData)
    (pd : PolicyDbsInfo) : Except Errno PolicyDbsInfo :=
  if policy.cur = 0 then .error .EINVAL
  else
    let pd1 := { pd with is_shared := 1 < policy.cpus.length, rate_mult := 1 }
    let cpus' := pd1.cpus.map fun e =>
      let r := env.idle e.1 dbs.io_is_busy
      (e.1, { prev_cpu_idle := r.1
              prev_cpu_wall := r.2
              prev_cpu_nice := if dbs.ignore_nice_load then env.nice e.1 else e.2.prev_cpu_nice
              prev_load := 0 : CpuDbsInfo })
    .ok (gov_set_update_util { pd1 with cpus := cpus' } dbs.sampling_rate)

/-- `gov_cancel_work`: retract the fast-path hooks (external), wait for
in-flight work (external), then reset the escalation counter and the
work-in-progress flag. -/
def gov_cancel_work (pd : PolicyDbsInfo) : PolicyDbsInfo :=
  { pd with work_count := 0, work_in_progress := false }

/-- `struct dbs_governor`: the system-wide tunables pointer
(`gdbs_data`), the governor-per-policy mode flag, and the
governor-variant `init` callback (external) that fills in a freshly
allocated `dbs_data`. -/
structure DbsGovernor where
  gdbs_data : Option DbsData
  per_policy : Bool
  govInit : DbsData → DbsData

/-- The state touched by the governor state machine: the policy (with
`policy->governor_data` modelled as the adjacent `governor_data`
field), the `dbs_data` instance the policy's `policy_dbs` references,
and the governor object. -/
structure GovSys where
  policy : CpufreqPolicy
  governor_data : Option PolicyDbsInfo
  pdbs_dbs : DbsData
  gov : DbsGovernor

/-- `alloc_policy_dbs_info`: a zero-initialized per-policy governor-data
object whose per-CPU trackers cover the policy's processors. -/
def allocPolicyDbsInfo (policy : CpufreqPolicy) : PolicyDbsInfo :=
  { cpus := policy.cpus.map fun j => (j, ⟨0, 0, 0, 0⟩)
    sample_delay_ns := 0
    last_sample_time := 0
    rate_mult := 0
    is_shared := false
    work_in_progress := false
    work_count := 0 }

def MIN_LATENCY_MULTIPLIER : Nat := 20

def LATENCY_MULTIPLIER : Nat := 1000

/-- `cpufreq_governor_init`: fail with `EBUSY` when the domain is
already initialized (`policy->governor_data` set) without touching any
state; otherwise allocate the per-policy data and either attach to the
existing system-wide tunables (incrementing their usage count) or
create a fresh instance, derive `min_sampling_rate`/`sampling_rate`
from the hardware transition latency, and publish it.  External failure
points (allocation, kobject registration) are modelled as
succeeding. -/
def governorDoInit (s : GovSys) : (Except Errno Nat) × GovSys :=
  if s.governor_data.isSome then (.error .EBUSY, s)
  else
    let pd := allocPolicyDbsInfo s.policy
    match s.gov.gdbs_data with
    | some dbs =>
        if s.gov.per_policy then (.error .EINVAL, s)
        else
          let dbs' := { dbs with usage_count := dbs.usage_count + 1 }
          (.ok 0,
           { s with governor_data := some pd, pdbs_dbs := dbs',
                    gov := { s.gov with gdbs_data := some dbs' } })
    | none =>
        let dbs0 := s.gov.govInit
          { sampling_rate := 0, min_sampling_rate := 0,
            ignore_nice_load := false, io_is_busy := false, usage_count := 1 }
        let latency0 := s.policy.transition_latency / 1000
        let latency := if latency0 = 0 then 1 else latency0
        let minRate := max dbs0.min_sampling_rate (MIN_LATENCY_MULTIPLIER * latency)
        let dbs1 := { dbs0 with
          min_sampling_rate := minRate,
          sampling_rate := max minRate (LATENCY_MULTIPLIER * latency) }
        (.ok 0,
         { s with governor_data := some pd, pdbs_dbs := dbs1,
                  gov := { s.gov with
                    gdbs_data := if s.gov.per_policy then s.gov.gdbs_data else some dbs1 } })

/-- `cpufreq_governor_exit`: detach from the tunables
(`gov_attr_set_put`), destroying them when the usage count reaches
zero, and free the per-policy data. -/
def governorDoExit (s : GovSys) : (Except Errno Nat) × GovSys :=
  let count := s.pdbs_dbs.usage_count - 1
  let dbs' := { s.pdbs_dbs with usage_count := count }
  let gov' := { s.gov with gdbs_data :=
    if count = 0 then none
    else if s.gov.per_policy then s.gov.gdbs_data else some dbs' }
  (.ok 0, { s with governor_data := none, pdbs_dbs := dbs', gov := gov' })

/-- `cpufreq_governor_dbs`: the lifecycle dispatcher.  `init` is always
routed to the init transition; every other event requires the domain to
be initialized (`policy->governor_data` non-null) and otherwise falls
through to `-EINVAL`. -/
def cpufreq_governor_dbs (env : Env) (s : GovSys) (event : GovEvent) :
    (Except Errno Nat) × GovSys :=
  if event = GovEvent.POLICY_INIT then governorDoInit s
  else
    match s.governor_data with
    | some pd =>
        match event with
        | .POLICY_EXIT => governorDoExit s
        | .START =>
            match cpufreq_governor_start env s.policy s.pdbs_dbs pd with
            | .ok pd' => (.ok 0, { s with governor_data := some pd' })
            | .error e => (.error e, s)
        | .STOP => (.ok 0, { s with governor_data := some (gov_cancel_work pd) })
        | .LIMITS =>
            let r := cpufreq_governor_limits s.policy pd
            (.ok 0, { s with governor_data := some r.1 })
        | .POLICY_INIT => (.error .EINVAL, s)
    | none => (.error .EINVAL, s)

/-- Concrete environment for the first sample of the idle-wake
scenario: a large wall-time gap. -/
def envGapW : Env :=
  { idle := fun _ _ => (5, 1000), nice := fun _ => 0, c2u := fun x => x }

/-- Concrete environment for the second sample of the idle-wake
scenario: a normal gap. -/
def envFreshW : Env :=
  { idle := fun _ _ => (10, 1015), nice := fun _ => 0, c2u := fun x => x }

/-- Concrete tracker with a non-zero cached load. -/
def cGapW : CpuDbsInfo := ⟨0, 0, 0, 60⟩

/-- Concrete policy with the current frequency above the maximum. -/
def polHighW : CpufreqPolicy :=
  { cur := 5, min := 1, max := 3, cpus := [0, 1], transition_latency := 50000 }

/-- Concrete policy with the current frequency inside the bounds. -/
def polOkW : CpufreqPolicy :=
  { cur := 2, min := 1, max := 3, cpus := [0, 1], transition_latency := 50000 }

/-- Concrete tunables with no active domain attached. -/
def dbsIdleW : DbsData :=
  { sampling_rate := 10, min_sampling_rate := 10,
    ignore_nice_load := false, io_is_busy := false, usage_count := 0 }

/-- Concrete store callback used to exercise `governor_store`. -/
def storeFnW (dbs : DbsData) (pds : List PolicyDbsInfo) :
    (Except Errno Nat) × DbsData × List PolicyDbsInfo :=
  (Except.ok 1, dbs, pds)

/-- Concrete governor object. -/
def govW : DbsGovernor :=
  { gdbs_data := none, per_policy := false, govInit := fun d => d }

/-- Concrete system state with an initialized domain. -/
def sysInitW : GovSys :=
  { policy := polOkW, governor_data := some pdW, pdbs_dbs := dbsW, gov := govW }

/-- Concrete system state with an uninitialized domain. -/
def sysNoneW : GovSys :=
  { policy := polOkW, governor_data := none, pdbs_dbs := dbsW, gov := govW }

/-- The concrete per-domain state produced by a successful start. -/
def pdStartedW : PolicyDbsInfo :=
  (cpufreq_governor_start envW polOkW dbsW pdW).toOption.getD pdW

/-!
Concurrency model of the fast path (`dbs_update_util_handler`) on a
shared domain, within one sampling window (no slow-path completion in
between).  Each processor's in-flight invocation is a thread advancing
through the handler's shared-memory accesses one atomic step at a time;
executions are arbitrary interleavings of these steps under sequential
consistency.
-/

/-- Program counter of one in-flight `dbs_update_util_handler`
invocation: each value names the next shared-memory access
(`start` = about to read `work_in_progress`; `readLst` = about to
`READ_ONCE(last_sample_time)`; `checkDelta` = about to compare the delta
against `sample_delay_ns`; `tryInc` = about to
`atomic_add_unless(&work_count, 1, 1)`; `checkStale` = won, about to
re-read `last_sample_time`; `writeLst`, `setWip`, `queueWork` = the
winner's three updates; `resetCnt` = stale read seen, about to
`atomic_set(&work_count, 0)`; `done` = returned). -/
inductive HandlerPC where
  | start
  | readLst
  | checkDelta
  | tryInc
  | checkStale
  | writeLst
  | setWip
  | queueWork
  | resetCnt
  | done
deriving DecidableEq, Repr

/-- One fast-path invocation: its program counter, its local copy `lst`
of `last_sample_time`, and its timestamp argument `time`. -/
structure HandlerThread where
  pc : HandlerPC
  lst : Nat
  time : Nat
deriving DecidableEq, Repr

/-- The shared per-domain state the fast path touches, together with
the in-flight invocations; `queued` counts `irq_work_queue` calls, i.e.
escalations to the slow path. -/
structure TriggerState where
  ts : List HandlerThread
  wip : Bool
  lastSampleTime : Nat
  workCount : Nat
  queued : Nat
deriving DecidableEq, Repr

/-- One atomic step of one invocation of `dbs_update_util_handler` on a
shared domain (`is_shared` true), `sample_delay_ns` fixed at `delay`
for the window. -/
inductive TriggerStep (delay : Nat) : TriggerState → TriggerState → Prop where
  | wipBusy (s : TriggerState) (i : Nat) (t : HandlerThread)
      (hg : s.ts[i]? = some t) (hpc : t.pc = HandlerPC.start) (hw : s.wip = true) :
      TriggerStep delay s { s with ts := s.ts.set i { t with pc := HandlerPC.done } }
  | wipClear (s : TriggerState) (i : Nat) (t : HandlerThread)
      (hg : s.ts[i]? = some t) (hpc : t.pc = HandlerPC.start) (hw : s.wip = false) :
      TriggerStep delay s { s with ts := s.ts.set i { t with pc := HandlerPC.readLst } }
  | readLstStep (s : TriggerState) (i : Nat) (t : HandlerThread)
      (hg : s.ts[i]? = some t) (hpc : t.pc = HandlerPC.readLst) :
      TriggerStep delay s
        { s with ts := s.ts.set i { t with pc := HandlerPC.checkDelta, lst := s.lastSampleTime } }
  | deltaEarly (s : TriggerState) (i : Nat) (t : HandlerThread)
      (hg : s.ts[i]? = some t) (hpc : t.pc = HandlerPC.checkDelta)
      (hd : fastPathElapsedOk t.lst delay t.time = false) :
      TriggerStep delay s { s with ts := s.ts.set i { t with pc := HandlerPC.done } }
  | deltaOk (s : TriggerState) (i : Nat) (t : HandlerThread)
      (hg : s.ts[i]? = some t) (hpc : t.pc = HandlerPC.checkDelta)
      (hd : fastPathElapsedOk t.lst delay t.time = true) :
      TriggerStep delay s { s with ts := s.ts.set i { t with pc := HandlerPC.tryInc } }
  | incFail (s : TriggerState) (i : Nat) (t : HandlerThread)
      (hg : s.ts[i]? = some t) (hpc : t.pc = HandlerPC.tryInc)
      (hc : s.workCount = 1) :
      TriggerStep delay s { s with ts := s.ts.set i { t with pc := HandlerPC.done } }
  | incWin (s : TriggerState) (i : Nat) (t : HandlerThread)
      (hg : s.ts[i]? = some t) (hpc : t.pc = HandlerPC.tryInc)
      (hc : s.workCount ≠ 1) :
      TriggerStep delay s
        { s with ts := s.ts.set i { t with pc := HandlerPC.checkStale },
                 workCount := s.workCount + 1 }
  | staleHit (s : TriggerState) (i : Nat) (t : HandlerThread)
      (hg : s.ts[i]? = some t) (hpc : t.pc = HandlerPC.checkStale)
      (hs : t.lst ≠ s.lastSampleTime) :
      TriggerStep delay s { s with ts := s.ts.set i { t with pc := HandlerPC.resetCnt } }
  | staleMiss (s : TriggerState) (i : Nat) (t : HandlerThread)
      (hg : s.ts[i]? = some t) (hpc : t.pc = HandlerPC.checkStale)
      (hs : t.lst = s.lastSampleTime) :
      TriggerStep delay s { s with ts := s.ts.set i { t with pc := HandlerPC.writeLst } }
  | resetStep (s : TriggerState) (i : Nat) (t : HandlerThread)
      (hg : s.ts[i]? = some t) (hpc : t.pc = HandlerPC.resetCnt) :
      TriggerStep delay s
        { s with ts := s.ts.set i { t with pc := HandlerPC.done }, workCount := 0 }
  | writeLstStep (s : TriggerState) (i : Nat) (t : HandlerThread)
      (hg : s.ts[i]? = some t) (hpc : t.pc = HandlerPC.writeLst) :
      TriggerStep delay s
        { s with ts := s.ts.set i { t with pc := HandlerPC.setWip },
                 lastSampleTime := t.time }
  | setWipStep (s : TriggerState) (i : Nat) (t : HandlerThread)
      (hg : s.ts[i]? = some t) (hpc : t.pc = HandlerPC.setWip) :
      TriggerStep delay s
        { s with ts := s.ts.set i { t with pc := HandlerPC.queueWork }, wip := true }
  | queueStep (s : TriggerState) (i : Nat) (t : HandlerThread)
      (hg : s.ts[i]? = some t) (hpc : t.pc = HandlerPC.queueWork) :
      TriggerStep delay s
        { s with ts := s.ts.set i { t with pc := HandlerPC.done },
                 queued := s.queued + 1 }

/-- Reachability under arbitrary interleavings of handler steps. -/
def TriggerReach (delay : Nat) : TriggerState → TriggerState → Prop :=
  Relation.ReflTransGen (TriggerStep delay)

/-- Start of the window: one invocation per processor (timestamps
`times`), `work_in_progress` false, `work_count` 0,
`last_sample_time = lst0`. -/
def triggerInit (times : List Nat) (lst0 : Nat) : TriggerState :=
  { ts := times.map fun tm => { pc := HandlerPC.start, lst := 0, time := tm }
    wip := false
    lastSampleTime := lst0
    workCount := 0
    queued := 0 }

/-- A thread that has not yet attempted the atomic increment. -/
def prePC (t : HandlerThread) : Prop :=
  t.pc = HandlerPC.start ∨ t.pc = HandlerPC.readLst ∨
  t.pc = HandlerPC.checkDelta ∨ t.pc = HandlerPC.tryInc

/-- A thread that has not won the atomic increment (still racing, or
already returned). -/
def loserPC (t : HandlerThread) : Prop := prePC t ∨ t.pc = HandlerPC.done

/-- Once a thread has read `last_sample_time`, its local copy is the
initial value (valid while no winner has advanced it). -/
def lstHolds (lst0 : Nat) (t : HandlerThread) : Prop :=
  (t.pc = HandlerPC.checkDelta ∨ t.pc = HandlerPC.tryInc) → t.lst = lst0

/-- All timestamps of the window lie at or beyond the sample deadline
and are s64-valid. -/
def timesOk (lst0 delay : Nat) (l : List HandlerThread) : Prop :=
  ∀ t ∈ l, lst0 + delay ≤ t.time ∧ t.time < 2 ^ 63

/-- Invariant phase 1: nobody has won the atomic increment yet. -/
def phaseRacing (lst0 : Nat) (s : TriggerState) : Prop :=
  s.workCount = 0 ∧ s.wip = false ∧ s.lastSampleTime = lst0 ∧ s.queued = 0 ∧
  ∀ t ∈ s.ts, prePC t ∧ lstHolds lst0 t

/-- The unique winner's progress through its post-win accesses. -/
def winnerAt (lst0 : Nat) (s : TriggerState) (t : HandlerThread) : Prop :=
  (t.pc = HandlerPC.checkStale ∧ t.lst = lst0 ∧ s.lastSampleTime = lst0 ∧ s.wip = false) ∨
  (t.pc = HandlerPC.writeLst ∧ s.lastSampleTime = lst0 ∧ s.wip = false) ∨
  (t.pc = HandlerPC.setWip ∧ s.lastSampleTime = t.time ∧ s.wip = false) ∨
  (t.pc = HandlerPC.queueWork ∧ s.lastSampleTime = t.time ∧ s.wip = true)

/-- Invariant phase 2: exactly one thread has won and has not yet
queued; everyone else is racing or returned. -/
def phaseWon (lst0 : Nat) (s : TriggerState) : Prop :=
  s.workCount = 1 ∧ s.queued = 0 ∧
  ∃ (i : Nat) (t : HandlerThread), s.ts[i]? = some t ∧ winnerAt lst0 s t ∧
    ∀ (j : Nat) (tj : HandlerThread), j ≠ i → s.ts[j]? = some tj → loserPC tj

/-- Invariant phase 3: the single escalation has been queued. -/
def phaseDoneQ (s : TriggerState) : Prop :=
  s.workCount = 1 ∧ s.queued = 1 ∧ s.wip = true ∧ ∀ t ∈ s.ts, loserPC t

/-- The inductive invariant of the escalation gate. -/
def triggerInv (lst0 delay : Nat) (s : TriggerState) : Prop :=
  timesOk lst0 delay s.ts ∧
  (phaseRacing lst0 s ∨ phaseWon lst0 s ∨ phaseDoneQ s)

/-- Intermediate states of a concrete two-processor execution. -/
def trS1 : TriggerState :=
  { ts := [⟨HandlerPC.readLst, 0, 12⟩, ⟨HandlerPC.start, 0, 12⟩]
    wip := false, lastSampleTime := 0, workCount := 0, queued := 0 }

def trS2 : TriggerState :=
  { ts := [⟨HandlerPC.checkDelta, 0, 12⟩, ⟨HandlerPC.start, 0, 12⟩]
    wip := false, lastSampleTime := 0, workCount := 0, queued := 0 }

def trS3 : TriggerState :=
  { ts := [⟨HandlerPC.tryInc, 0, 12⟩, ⟨HandlerPC.start, 0, 12⟩]
    wip := false, lastSampleTime := 0, workCount := 0, queued := 0 }

def trS4 : TriggerState :=
  { ts := [⟨HandlerPC.checkStale, 0, 12⟩, ⟨HandlerPC.start, 0, 12⟩]
    wip := false, lastSampleTime := 0, workCount := 1, queued := 0 }

def trS5 : TriggerState :=
  { ts := [⟨HandlerPC.writeLst, 0, 12⟩, ⟨HandlerPC.start, 0, 12⟩]
    wip := false, lastSampleTime := 0, workCount := 1, queued := 0 }

def trS6 : TriggerState :=
  { ts := [⟨HandlerPC.setWip, 0, 12⟩, ⟨HandlerPC.start, 0, 12⟩]
    wip := false, lastSampleTime := 12, workCount := 1, queued := 0 }

def trS7 : TriggerState :=
  { ts := [⟨HandlerPC.queueWork, 0, 12⟩, ⟨HandlerPC.start, 0, 12⟩]
    wip := true, lastSampleTime := 12, workCount := 1, queued := 0 }

def trS8 : TriggerState :=
  { ts := [⟨HandlerPC.done, 0, 12⟩, ⟨HandlerPC.start, 0, 12⟩]
    wip := true, lastSampleTime := 12, workCount := 1, queued := 1 }

/-- Final state of the concrete execution: both invocations returned,
exactly one escalation queued. -/
def traceFinal : TriggerState :=
  { ts := [⟨HandlerPC.done, 0, 12⟩, ⟨HandlerPC.done, 0, 12⟩]
    wip := true, lastSampleTime := 12, workCount := 1, queued := 1 }

end CpufreqGov

namespace CpufreqGov

lemma if_lt_eq_max (a b : Nat) : (if a < b then b else a) = max a b := by
  split <;> omega

lemma load_formula_le (w i : Nat) (hw : w ≠ 0) :
    100 * (w - i) % U32 / w ≤ 100 := by
  have h1 : 100 * (w - i) % U32 ≤ 100 * w :=
    le_trans (Nat.mod_le _ _) (Nat.mul_le_mul_left _ (Nat.sub_le _ _))
  calc 100 * (w - i) % U32 / w ≤ 100 * w / w := Nat.div_le_div_right h1
    _ = 100 := by
        rw [Nat.mul_comm]
        exact Nat.mul_div_cancel_left 100 (Nat.pos_of_ne_zero hw)

lemma cpuUpdate_le (env : Env) (ign io : Bool) (sr j : Nat) (c : CpuDbsInfo)
    (h : c.prev_load ≤ 100) :
    (∀ l, (cpuUpdate env ign io sr j c).2 = some l → l ≤ 100) ∧
    (cpuUpdate env ign io sr j c).1.prev_load ≤ 100 := by
  by_cases h0 : wallDelta env io j c = 0 ∨ wallDelta env io j c < idleDelta env ign io j c
  · simp [cpuUpdate, h0, h]
  · have hwne : wallDelta env io j c ≠ 0 := fun hz => h0 (Or.inl hz)
    by_cases h1 : 2 * sr % U32 < wallDelta env io j c ∧ c.prev_load ≠ 0
    · simp [cpuUpdate, h0, h1, h]
    · simp only [cpuUpdate, if_neg h0, if_neg h1]
      refine ⟨fun l hl => ?_, ?_⟩
      · have hinj := Option.some.inj hl
        exact hinj ▸ load_formula_le (wallDelta env io j c) (idleDelta env ign io j c) hwne
      · exact load_formula_le (wallDelta env io j c) (idleDelta env ign io j c) hwne

lemma dbsUpdateLoop_eq (env : Env) (ign io : Bool) (sr : Nat) :
    ∀ (l : List (Nat × CpuDbsInfo)) (m : Nat),
      dbsUpdateLoop env ign io sr l m =
        (l.map (fun e => (e.1, (cpuUpdate env ign io sr e.1 e.2).1)),
         (cpuLoads env ign io sr l).foldl max m)
  | [], m => by simp [dbsUpdateLoop, cpuLoads]
  | (j, c) :: rest, m => by
      simp only [dbsUpdateLoop, cpuLoads, List.filterMap_cons, List.map_cons]
      cases hr : (cpuUpdate env ign io sr j c).2 with
      | none =>
          simp [hr, dbsUpdateLoop_eq env ign io sr rest m, cpuLoads]
      | some load =>
          simp [hr, dbsUpdateLoop_eq env ign io sr rest (max m load), cpuLoads,
            if_lt_eq_max]

lemma foldl_max_le :
    ∀ (L : List Nat) (m : Nat), m ≤ 100 → (∀ x ∈ L, x ≤ 100) → L.foldl max m ≤ 100
  | [], m, hm, _ => hm
  | x :: L, m, hm, hL => by
      simp only [List.foldl_cons]
      exact foldl_max_le L (max m x)
        (max_le hm (hL x (List.mem_cons_self x L)))
        (fun y hy => hL y (List.mem_cons_of_mem x hy))

/-- C1: for every policy domain and every vector of per-processor
idle/wall counter readings (with the cached loads in their invariant
range, as start and every previous sample establish), the load returned
by `dbs_update` is in `[0, 100]` and equals the maximum of the
per-processor loads computed for that sample; a processor whose
wall-time delta is zero or smaller than its idle-time delta is skipped
and contributes no load, and the division
`100 * (wall_delta - idle_delta) / wall_delta` only happens with a
positive divisor, yielding at most 100 (the third conjunct re-establishes
the cache invariant). -/
theorem dbs_update_load_bounded_and_max (env : Env) (dbs : DbsData) (pd : PolicyDbsInfo)
    (h : ∀ e ∈ pd.cpus, e.2.prev_load ≤ 100) :
    (dbs_update env dbs pd).2 ≤ 100 ∧
    (dbs_update env dbs pd).2 =
      (cpuLoads env dbs.ignore_nice_load dbs.io_is_busy
        (dbs.sampling_rate * pd.rate_mult % U32) pd.cpus).foldl max 0 ∧
    ∀ e ∈ (dbs_update env dbs pd).1.cpus, e.2.prev_load ≤ 100 := by
  have hloop := dbsUpdateLoop_eq env dbs.ignore_nice_load dbs.io_is_busy
    (dbs.sampling_rate * pd.rate_mult % U32) pd.cpus 0
  have hloads : ∀ x ∈ cpuLoads env dbs.ignore_nice_load dbs.io_is_busy
      (dbs.sampling_rate * pd.rate_mult % U32) pd.cpus, x ≤ 100 := by
    intro x hx
    rcases List.mem_filterMap.mp hx with ⟨e, he, hfe⟩
    exact (cpuUpdate_le env dbs.ignore_nice_load dbs.io_is_busy
      (dbs.sampling_rate * pd.rate_mult % U32) e.1 e.2 (h e he)).1 x hfe
  refine ⟨?_, ?_, ?_⟩
  · simp only [dbs_update, hloop]
    exact foldl_max_le _ 0 (Nat.zero_le _) hloads
  · simp only [dbs_update, hloop]
  · simp only [dbs_update, hloop]
    intro e he
    rcases List.mem_map.mp he with ⟨a, ha, rfl⟩
    exact (cpuUpdate_le env dbs.ignore_nice_load dbs.io_is_busy
      (dbs.sampling_rate * pd.rate_mult % U32) a.1 a.2 (h a ha)).2

/-- Witness for C1 at a concrete two-processor domain. -/
theorem dbs_update_load_bounded_and_max_witness :
    (∀ e ∈ pdW.cpus, e.2.prev_load ≤ 100) ∧
    ((dbs_update envW dbsW pdW).2 ≤ 100 ∧
     (dbs_update envW dbsW pdW).2 =
       (cpuLoads envW dbsW.ignore_nice_load dbsW.io_is_busy
         (dbsW.sampling_rate * pdW.rate_mult % U32) pdW.cpus).foldl max 0 ∧
     ∀ e ∈ (dbs_update envW dbsW pdW).1.cpus, e.2.prev_load ≤ 100) :=
  ⟨by decide, dbs_update_load_bounded_and_max envW dbsW pdW (by decide)⟩

/-- C2: for a processor considered in a sample, when the wall-time delta
exceeds twice the effective sampling interval (`sampling_rate` times
`rate_mult`, `unsigned int` arithmetic) and a non-zero previous load is
cached, the sample reuses the cached load and destructively clears the
cache; a following sample that passes the skip guard then recomputes the
load as `100 * (wall_delta - idle_delta) / wall_delta` from fresh deltas
and caches it, so the heuristic fires at most once per wake event. -/
theorem idle_wake_heuristic_once (env1 env2 : Env) (ign io : Bool)
    (sampling_rate rate_mult sr2 j : Nat) (c : CpuDbsInfo)
    (hskip1 : ¬ (wallDelta env1 io j c = 0 ∨
        wallDelta env1 io j c < idleDelta env1 ign io j c))
    (hgap : 2 * (sampling_rate * rate_mult % U32) % U32 < wallDelta env1 io j c)
    (hprev : c.prev_load ≠ 0)
    (hskip2 : ¬ (wallDelta env2 io j
          (cpuUpdate env1 ign io (sampling_rate * rate_mult % U32) j c).1 = 0 ∨
        wallDelta env2 io j
          (cpuUpdate env1 ign io (sampling_rate * rate_mult % U32) j c).1 <
        idleDelta env2 ign io j
          (cpuUpdate env1 ign io (sampling_rate * rate_mult % U32) j c).1)) :
    (cpuUpdate env1 ign io (sampling_rate * rate_mult % U32) j c).2 = some c.prev_load ∧
    (cpuUpdate env1 ign io (sampling_rate * rate_mult % U32) j c).1.prev_load = 0 ∧
    (cpuUpdate env2 ign io sr2 j
        (cpuUpdate env1 ign io (sampling_rate * rate_mult % U32) j c).1).2 =
      some (100 * (wallDelta env2 io j
          (cpuUpdate env1 ign io (sampling_rate * rate_mult % U32) j c).1 -
        idleDelta env2 ign io j
          (cpuUpdate env1 ign io (sampling_rate * rate_mult % U32) j c).1) % U32 /
        wallDelta env2 io j
          (cpuUpdate env1 ign io (sampling_rate * rate_mult % U32) j c).1) ∧
    (cpuUpdate env2 ign io sr2 j
        (cpuUpdate env1 ign io (sampling_rate * rate_mult % U32) j c).1).1.prev_load =
      100 * (wallDelta env2 io j
          (cpuUpdate env1 ign io (sampling_rate * rate_mult % U32) j c).1 -
        idleDelta env2 ign io j
          (cpuUpdate env1 ign io (sampling_rate * rate_mult % U32) j c).1) % U32 /
        wallDelta env2 io j
          (cpuUpdate env1 ign io (sampling_rate * rate_mult % U32) j c).1 := by
  have h1 : (cpuUpdate env1 ign io (sampling_rate * rate_mult % U32) j c).2 =
      some c.prev_load := by
    simp only [cpuUpdate]
    rw [if_neg hskip1, if_pos (And.intro hgap hprev)]
  have h2 : (cpuUpdate env1 ign io (sampling_rate * rate_mult % U32) j c).1.prev_load = 0 := by
    simp only [cpuUpdate]
    rw [if_neg hskip1, if_pos (And.intro hgap hprev)]
  refine ⟨h1, h2, ?_, ?_⟩ <;>
  · generalize (cpuUpdate env1 ign io (sampling_rate * rate_mult % U32) j c).1 = c1 at h2 hskip2 ⊢
    have hc2 : ¬ (2 * sr2 % U32 < wallDelta env2 io j c1 ∧ c1.prev_load ≠ 0) :=
      fun hcon => hcon.2 h2
    simp only [cpuUpdate]
    rw [if_neg hskip2, if_neg hc2]

/-- Witness for C2: a long-gap sample (wall delta 1000 against an
effective interval of 10) fires the heuristic and clears the cache, and
the following normal-gap sample recomputes from fresh deltas. -/
theorem idle_wake_heuristic_once_witness :
    (¬ (wallDelta envGapW false 0 cGapW = 0 ∨
        wallDelta envGapW false 0 cGapW < idleDelta envGapW false false 0 cGapW)) ∧
    (2 * (10 * 1 % U32) % U32 < wallDelta envGapW false 0 cGapW) ∧
    ((cpuUpdate envGapW false false (10 * 1 % U32) 0 cGapW).2 = some cGapW.prev_load ∧
     (cpuUpdate envGapW false false (10 * 1 % U32) 0 cGapW).1.prev_load = 0 ∧
     (cpuUpdate envFreshW false false 10 0
         (cpuUpdate envGapW false false (10 * 1 % U32) 0 cGapW).1).2 =
       some (100 * (wallDelta envFreshW false 0
           (cpuUpdate envGapW false false (10 * 1 % U32) 0 cGapW).1 -
         idleDelta envFreshW false false 0
           (cpuUpdate envGapW false false (10 * 1 % U32) 0 cGapW).1) % U32 /
         wallDelta envFreshW false 0
           (cpuUpdate envGapW false false (10 * 1 % U32) 0 cGapW).1) ∧
     (cpuUpdate envFreshW false false 10 0
         (cpuUpdate envGapW false false (10 * 1 % U32) 0 cGapW).1).1.prev_load =
       100 * (wallDelta envFreshW false 0
           (cpuUpdate envGapW false false (10 * 1 % U32) 0 cGapW).1 -
         idleDelta envFreshW false false 0
           (cpuUpdate envGapW false false (10 * 1 % U32) 0 cGapW).1) % U32 /
         wallDelta envFreshW false 0
           (cpuUpdate envGapW false false (10 * 1 % U32) 0 cGapW).1) :=
  ⟨by decide, by decide,
   idle_wake_heuristic_once envGapW envFreshW false false 10 1 10 0 cGapW
     (by decide) (by decide) (by decide) (by decide)⟩

/-- C4: an input that parses as a single unsigned integer sets the
stored rate to `max(value, min_sampling_rate)` and forces every
registered domain's sample delay to 0 (each domain otherwise
unchanged), so a decreased rate takes effect before the previously
scheduled deadline. -/
theorem store_sampling_rate_applies (dbs : DbsData) (pds : List PolicyDbsInfo)
    (v count : Nat) :
    (store_sampling_rate dbs pds (some v) count).1 = Except.ok count ∧
    (store_sampling_rate dbs pds (some v) count).2.1 =
      { dbs with sampling_rate := max v dbs.min_sampling_rate } ∧
    (store_sampling_rate dbs pds (some v) count).2.2 =
      pds.map (fun pd => { pd with sample_delay_ns := 0 }) ∧
    ∀ pd ∈ (store_sampling_rate dbs pds (some v) count).2.2,
      pd.sample_delay_ns = 0 := by
  refine ⟨rfl, rfl, ?_, ?_⟩
  · simp [store_sampling_rate, gov_update_sample_delay, NSEC_PER_USEC]
  · intro pd hpd
    simp only [store_sampling_rate, List.mem_map] at hpd
    rcases hpd with ⟨a, _, rfl⟩
    simp [gov_update_sample_delay, NSEC_PER_USEC]

/-- C7: an input that does not parse as a single unsigned integer is
rejected with `EINVAL` and the tunables instance and every registered
domain are returned exactly as they were. -/
theorem store_sampling_rate_rejects_malformed (dbs : DbsData)
    (pds : List PolicyDbsInfo) (count : Nat) :
    store_sampling_rate dbs pds none count = (Except.error Errno.EINVAL, dbs, pds) :=
  rfl

/-- C8: an attribute write against a tunables instance with zero active
domains fails with `EBUSY`, the attribute-specific store callback is
never invoked, and the state is unchanged (the check and the store run
under the instance's update lock, here a single atomic step). -/
theorem governor_store_rejects_inactive (dbs : DbsData) (pds : List PolicyDbsInfo)
    (storeFn : DbsData → List PolicyDbsInfo →
      (Except Errno Nat) × DbsData × List PolicyDbsInfo)
    (h : dbs.usage_count = 0) :
    governor_store dbs pds storeFn = (Except.error Errno.EBUSY, dbs, pds, false) := by
  simp [governor_store, h]

/-- Witness for C8 at a concrete inactive instance. -/
theorem governor_store_rejects_inactive_witness :
    dbsIdleW.usage_count = 0 ∧
    governor_store dbsIdleW [pdW] storeFnW =
      (Except.error Errno.EBUSY, dbsIdleW, [pdW], false) :=
  ⟨rfl, governor_store_rejects_inactive dbsIdleW [pdW] storeFnW rfl⟩

/-- C5: when `policy.max < policy.cur` the frequency-change driver is
invoked with (target = max, relation = at-most); when instead
`policy.min > policy.cur` it is invoked with (target = min, relation =
at-least); and in every case the sample delay is forced to 0 before the
transition returns, all under the domain's timer lock. -/
theorem governor_limits_clamps (policy : CpufreqPolicy) (pd : PolicyDbsInfo) :
    (policy.max < policy.cur →
      (cpufreq_governor_limits policy pd).2 = [(policy.max, FreqRelation.H)]) ∧
    (¬ policy.max < policy.cur → policy.cur < policy.min →
      (cpufreq_governor_limits policy pd).2 = [(policy.min, FreqRelation.L)]) ∧
    (cpufreq_governor_limits policy pd).1.sample_delay_ns = 0 := by
  refine ⟨fun h => ?_, fun h1 h2 => ?_, ?_⟩
  · simp [cpufreq_governor_limits, h]
  · simp [cpufreq_governor_limits, h1, h2]
  · simp [cpufreq_governor_limits, gov_update_sample_delay, NSEC_PER_USEC]

/-- Witness for C5: with `cur = 5` above `max = 3`, the driver is asked
to clamp to 3 with the at-most relation and the delay is reset. -/
theorem governor_limits_clamps_witness :
    polHighW.max < polHighW.cur ∧
    (cpufreq_governor_limits polHighW pdW).2 = [(polHighW.max, FreqRelation.H)] ∧
    (cpufreq_governor_limits polHighW pdW).1.sample_delay_ns = 0 :=
  ⟨by decide, (governor_limits_clamps polHighW pdW).1 (by decide),
   (governor_limits_clamps polHighW pdW).2.2⟩

/-- C10: when the current frequency already lies within
`[policy.min, policy.max]`, the `limits` transition makes no
frequency-change driver call and its only state change is resetting the
sample delay to 0; and every invocation of `limits` makes at most one
driver call. -/
theorem governor_limits_frame (policy : CpufreqPolicy) (pd : PolicyDbsInfo)
    (h1 : policy.min ≤ policy.cur) (h2 : policy.cur ≤ policy.max) :
    (cpufreq_governor_limits policy pd).2 = [] ∧
    (cpufreq_governor_limits policy pd).1 = { pd with sample_delay_ns := 0 } ∧
    ∀ (q : CpufreqPolicy) (r : PolicyDbsInfo),
      (cpufreq_governor_limits q r).2.length ≤ 1 := by
  refine ⟨?_, ?_, ?_⟩
  · simp [cpufreq_governor_limits, Nat.not_lt_of_ge h2, Nat.not_lt_of_ge h1]
  · simp [cpufreq_governor_limits, gov_update_sample_delay, NSEC_PER_USEC]
  · intro q r
    simp only [cpufreq_governor_limits]
    split
    · simp
    · split <;> simp

/-- Witness for C10: `cur = 2` inside `[1, 3]` yields no driver call and
only the delay is reset. -/
theorem governor_limits_frame_witness :
    polOkW.min ≤ polOkW.cur ∧ polOkW.cur ≤ polOkW.max ∧
    ((cpufreq_governor_limits polOkW pdW).2 = [] ∧
     (cpufreq_governor_limits polOkW pdW).1 = { pdW with sample_delay_ns := 0 } ∧
     ∀ (q : CpufreqPolicy) (r : PolicyDbsInfo),
       (cpufreq_governor_limits q r).2.length ≤ 1) :=
  ⟨by decide, by decide, governor_limits_frame polOkW pdW (by decide) (by decide)⟩

/-- C6: `init` on an already-initialized domain fails with `EBUSY`
(the code's rendering of `AlreadyInitialized`) without modifying any
state, and every transition other than `init` on an uninitialized
domain fails with `EINVAL` (the code's rendering of `InvalidState`). -/
theorem governor_dbs_lifecycle_guards (env : Env) (s : GovSys) :
    (s.governor_data.isSome = true →
      cpufreq_governor_dbs env s GovEvent.POLICY_INIT = (Except.error Errno.EBUSY, s)) ∧
    (s.governor_data = none → ∀ e : GovEvent, e ≠ GovEvent.POLICY_INIT →
      cpufreq_governor_dbs env s e = (Except.error Errno.EINVAL, s)) := by
  constructor
  · intro h
    simp [cpufreq_governor_dbs, governorDoInit, h]
  · intro h e he
    cases e with
    | POLICY_INIT => exact absurd rfl he
    | POLICY_EXIT => simp [cpufreq_governor_dbs, h]
    | START => simp [cpufreq_governor_dbs, h]
    | STOP => simp [cpufreq_governor_dbs, h]
    | LIMITS => simp [cpufreq_governor_dbs, h]

/-- Witness for C6 at concrete initialized and uninitialized states. -/
theorem governor_dbs_lifecycle_guards_witness :
    cpufreq_governor_dbs envW sysInitW GovEvent.POLICY_INIT =
      (Except.error Errno.EBUSY, sysInitW) ∧
    cpufreq_governor_dbs envW sysNoneW GovEvent.START =
      (Except.error Errno.EINVAL, sysNoneW) :=
  ⟨(governor_dbs_lifecycle_guards envW sysInitW).1 rfl,
   (governor_dbs_lifecycle_guards envW sysNoneW).2 rfl GovEvent.START (by decide)⟩

lemma fastPathElapsedOk_of (lst delay time : Nat) (h1 : lst + delay ≤ time)
    (h2 : time < 2 ^ 63) : fastPathElapsedOk lst delay time = true := by
  have hU : U64 = 18446744073709551616 := by norm_num [U64]
  have hw : wsub64 time lst = time - lst := by
    unfold wsub64
    rw [hU]
    omega
  have hmod : (time - lst) % U64 = time - lst := by
    rw [hU]
    omega
  have hlt2 : time - lst < 2 ^ 63 := lt_of_le_of_lt (Nat.sub_le _ _) h2
  unfold fastPathElapsedOk toS64
  rw [hw, hmod, if_pos hlt2]
  split
  next h => exact absurd h (by omega)
  next => rfl

lemma gov_set_update_util_last (pd : PolicyDbsInfo) (d : Nat) :
    (gov_set_update_util pd d).last_sample_time = 0 := rfl

lemma gov_set_update_util_delay (pd : PolicyDbsInfo) (d : Nat) :
    (gov_set_update_util pd d).sample_delay_ns = d * NSEC_PER_USEC := rfl

lemma cpuUpdate_computes (env : Env) (ign io : Bool) (sr j : Nat) (c : CpuDbsInfo)
    (hguard : ¬ (wallDelta env io j c = 0 ∨ wallDelta env io j c < idleDelta env ign io j c))
    (hzero : c.prev_load = 0) :
    (cpuUpdate env ign io sr j c).2 =
      some (100 * (wallDelta env io j c - idleDelta env ign io j c) % U32 /
        wallDelta env io j c) := by
  have hcond : ¬ (2 * sr % U32 < wallDelta env io j c ∧ c.prev_load ≠ 0) :=
    fun hcon => hcon.2 hzero
  simp only [cpuUpdate]
  rw [if_neg hguard, if_neg hcond]

/-- C9: after a successful start, the domain's `last_sample_time` is 0
and every member processor's cached `prev_load` is 0; hence the first
fast-path invocation passes the elapsed-time check for any (s64-valid)
timestamp at least the sample delay, and the first `dbs_update` after
start computes each considered processor's load from fresh deltas
rather than from the idle-wake cache. -/
theorem start_resets_sampling_state (env env2 : Env) (policy : CpufreqPolicy)
    (dbs : DbsData) (pd pd' : PolicyDbsInfo)
    (hok : cpufreq_governor_start env policy dbs pd = Except.ok pd') :
    pd'.last_sample_time = 0 ∧
    (∀ e ∈ pd'.cpus, e.2.prev_load = 0) ∧
    (∀ time : Nat, pd'.sample_delay_ns ≤ time → time < 2 ^ 63 →
      fastPathElapsedOk pd'.last_sample_time pd'.sample_delay_ns time = true) ∧
    (∀ jc ∈ pd'.cpus, ∀ sr2 : Nat,
      ¬ (wallDelta env2 dbs.io_is_busy jc.1 jc.2 = 0 ∨
         wallDelta env2 dbs.io_is_busy jc.1 jc.2 <
           idleDelta env2 dbs.ignore_nice_load dbs.io_is_busy jc.1 jc.2) →
      (cpuUpdate env2 dbs.ignore_nice_load dbs.io_is_busy sr2 jc.1 jc.2).2 =
        some (100 * (wallDelta env2 dbs.io_is_busy jc.1 jc.2 -
          idleDelta env2 dbs.ignore_nice_load dbs.io_is_busy jc.1 jc.2) % U32 /
          wallDelta env2 dbs.io_is_busy jc.1 jc.2)) := by
  by_cases hcur : policy.cur = 0
  · simp [cpufreq_governor_start, hcur] at hok
  · simp only [cpufreq_governor_start, if_neg hcur, Except.ok.injEq] at hok
    subst hok
    refine ⟨rfl, ?_, ?_, ?_⟩
    · intro e he
      simp only [gov_set_update_util, gov_update_sample_delay, List.mem_map] at he
      rcases he with ⟨a, _, rfl⟩
      rfl
    · intro time htime hvalid
      rw [gov_set_update_util_last]
      refine fastPathElapsedOk_of 0 _ time ?_ hvalid
      omega
    · intro jc hjc sr2 hguard
      have hzero : jc.2.prev_load = 0 := by
        simp only [gov_set_update_util, gov_update_sample_delay, List.mem_map] at hjc
        rcases hjc with ⟨a, _, rfl⟩
        rfl
      exact cpuUpdate_computes env2 dbs.ignore_nice_load dbs.io_is_busy sr2 jc.1 jc.2
        hguard hzero

/-- Witness for C9 at a concrete successful start. -/
theorem start_resets_sampling_state_witness :
    cpufreq_governor_start envW polOkW dbsW pdW = Except.ok pdStartedW ∧
    (pdStartedW.last_sample_time = 0 ∧
     (∀ e ∈ pdStartedW.cpus, e.2.prev_load = 0) ∧
     (∀ time : Nat, pdStartedW.sample_delay_ns ≤ time → time < 2 ^ 63 →
       fastPathElapsedOk pdStartedW.last_sample_time pdStartedW.sample_delay_ns time = true) ∧
     (∀ jc ∈ pdStartedW.cpus, ∀ sr2 : Nat,
       ¬ (wallDelta envFreshW dbsW.io_is_busy jc.1 jc.2 = 0 ∨
          wallDelta envFreshW dbsW.io_is_busy jc.1 jc.2 <
            idleDelta envFreshW dbsW.ignore_nice_load dbsW.io_is_busy jc.1 jc.2) →
       (cpuUpdate envFreshW dbsW.ignore_nice_load dbsW.io_is_busy sr2 jc.1 jc.2).2 =
         some (100 * (wallDelta envFreshW dbsW.io_is_busy jc.1 jc.2 -
           idleDelta envFreshW dbsW.ignore_nice_load dbsW.io_is_busy jc.1 jc.2) % U32 /
           wallDelta envFreshW dbsW.io_is_busy jc.1 jc.2))) :=
  ⟨rfl, start_resets_sampling_state envW envFreshW polOkW dbsW pdW pdStartedW rfl⟩

lemma getElem?_lt (l : List HandlerThread) (i : Nat) (t : HandlerThread)
    (h : l[i]? = some t) : i < l.length := by
  rcases List.getElem?_eq_some.mp h with ⟨hl, _⟩
  exact hl

lemma forall_set {P : HandlerThread → Prop} (l : List HandlerThread) (i : Nat)
    (t' : HandlerThread) (h : ∀ x ∈ l, P x) (h' : P t') : ∀ x ∈ l.set i t', P x := by
  intro x hx
  rcases List.mem_or_eq_of_mem_set hx with hx' | rfl
  · exact h x hx'
  · exact h'

lemma timesOk_set (lst0 delay : Nat) (l : List HandlerThread) (i : Nat)
    (t t' : HandlerThread) (hg : l[i]? = some t) (htt : t'.time = t.time)
    (h : timesOk lst0 delay l) : timesOk lst0 delay (l.set i t') := by
  intro x hx
  rcases List.mem_or_eq_of_mem_set hx with hx' | rfl
  · exact h x hx'
  · rw [htt]
    exact h t (List.getElem?_mem hg)

lemma losers_set (l : List HandlerThread) (w i : Nat) (t t' : HandlerThread)
    (hg : l[i]? = some t)
    (hoth : ∀ (j : Nat) (tj : HandlerThread), j ≠ w → l[j]? = some tj → loserPC tj)
    (hl' : loserPC t') :
    ∀ (j : Nat) (tj : HandlerThread), j ≠ w → (l.set i t')[j]? = some tj → loserPC tj := by
  intro j tj hjw hj
  by_cases hji : j = i
  · rw [hji, List.getElem?_set_eq_of_lt t' (getElem?_lt l i t hg)] at hj
    cases hj
    exact hl'
  · rw [List.getElem?_set_ne (Ne.symm hji)] at hj
    exact hoth j tj hjw hj

lemma losers_all_set (l : List HandlerThread) (i : Nat) (t' : HandlerThread)
    (hoth : ∀ (j : Nat) (tj : HandlerThread), j ≠ i → l[j]? = some tj → loserPC tj)
    (hl' : loserPC t') :
    ∀ x ∈ l.set i t', loserPC x := by
  intro x hx
  rcases List.mem_iff_getElem?.mp hx with ⟨j, hj⟩
  by_cases hji : j = i
  · subst hji
    have hlen : j < l.length := by
      have h2 := getElem?_lt (l.set j t') j x hj
      simpa using h2
    rw [List.getElem?_set_eq_of_lt t' hlen] at hj
    cases hj
    exact hl'
  · rw [List.getElem?_set_ne (Ne.symm hji)] at hj
    exact hoth j x hji hj

lemma not_pre_of_pc_eq (t : HandlerThread) (p : HandlerPC) (hpc : t.pc = p)
    (h1 : p ≠ HandlerPC.start) (h2 : p ≠ HandlerPC.readLst)
    (h3 : p ≠ HandlerPC.checkDelta) (h4 : p ≠ HandlerPC.tryInc) : ¬ prePC t := by
  intro hl
  rcases hl with h | h | h | h <;> rw [hpc] at h
  · exact h1 h
  · exact h2 h
  · exact h3 h
  · exact h4 h

lemma not_loser_of_pc_eq (t : HandlerThread) (p : HandlerPC) (hpc : t.pc = p)
    (h1 : p ≠ HandlerPC.start) (h2 : p ≠ HandlerPC.readLst)
    (h3 : p ≠ HandlerPC.checkDelta) (h4 : p ≠ HandlerPC.tryInc)
    (h5 : p ≠ HandlerPC.done) : ¬ loserPC t := by
  intro hl
  rcases hl with hl | hl
  · exact not_pre_of_pc_eq t p hpc h1 h2 h3 h4 hl
  · rw [hpc] at hl
    exact h5 hl

lemma lstHolds_irrel (lst0 : Nat) (t' : HandlerThread)
    (h1 : t'.pc ≠ HandlerPC.checkDelta) (h2 : t'.pc ≠ HandlerPC.tryInc) :
    lstHolds lst0 t' := by
  intro h
  rcases h with h | h
  · exact absurd h h1
  · exact absurd h h2

lemma phaseRacing_step (lst0 : Nat) (s : TriggerState) (i : Nat) (t' : HandlerThread)
    (hphase : phaseRacing lst0 s) (hpre' : prePC t') (hlst' : lstHolds lst0 t') :
    phaseRacing lst0 { s with ts := s.ts.set i t' } := by
  obtain ⟨h1, h2, h3, h4, h5⟩ := hphase
  exact ⟨h1, h2, h3, h4, forall_set s.ts i t' h5 ⟨hpre', hlst'⟩⟩

lemma phaseDoneQ_step (s : TriggerState) (i : Nat) (t' : HandlerThread)
    (hphase : phaseDoneQ s) (hl' : loserPC t') :
    phaseDoneQ { s with ts := s.ts.set i t' } := by
  obtain ⟨h1, h2, h3, h4⟩ := hphase
  exact ⟨h1, h2, h3, forall_set s.ts i t' h4 hl'⟩

lemma phaseWon_step_other (lst0 : Nat) (s : TriggerState) (i : Nat)
    (t t' : HandlerThread) (hg : s.ts[i]? = some t)
    (hphase : phaseWon lst0 s) (hpre : prePC t) (hl' : loserPC t') :
    phaseWon lst0 { s with ts := s.ts.set i t' } := by
  obtain ⟨hwc, hq, w, tw, hgw, hwin, hoth⟩ := hphase
  have hnei : i ≠ w := by
    intro he
    subst he
    rw [hg] at hgw
    cases hgw
    rcases hwin with ⟨h, _⟩ | ⟨h, _⟩ | ⟨h, _⟩ | ⟨h, _⟩ <;>
      rcases hpre with h' | h' | h' | h' <;> rw [h'] at h <;> exact absurd h (by decide)
  refine ⟨hwc, hq, w, tw, ?_, hwin, ?_⟩
  · rw [List.getElem?_set_ne hnei]
    exact hgw
  · exact losers_set s.ts w i t t' hg hoth hl'

lemma triggerStep_inv (lst0 delay : Nat) {s s' : TriggerState}
    (hstep : TriggerStep delay s s') (hInv : triggerInv lst0 delay s) :
    triggerInv lst0 delay s' := by
  obtain ⟨htimes, hphase⟩ := hInv
  cases hstep with
  | wipBusy i t hg hpc hw =>
      refine ⟨timesOk_set lst0 delay s.ts i t _ hg rfl htimes, ?_⟩
      rcases hphase with hr | hw2 | hd3
      · obtain ⟨_, hwf, _, _, _⟩ := hr
        rw [hw] at hwf
        exact absurd hwf (by decide)
      · exact Or.inr (Or.inl (phaseWon_step_other lst0 s i t _ hg hw2 (Or.inl hpc)
          (Or.inr rfl)))
      · exact Or.inr (Or.inr (phaseDoneQ_step s i _ hd3 (Or.inr rfl)))
  | wipClear i t hg hpc hw =>
      refine ⟨timesOk_set lst0 delay s.ts i t _ hg rfl htimes, ?_⟩
      rcases hphase with hr | hw2 | hd3
      · exact Or.inl (phaseRacing_step lst0 s i _ hr (Or.inr (Or.inl rfl))
          (lstHolds_irrel lst0 _ (by intro h; simp at h) (by intro h; simp at h)))
      · exact Or.inr (Or.inl (phaseWon_step_other lst0 s i t _ hg hw2 (Or.inl hpc)
          (Or.inl (Or.inr (Or.inl rfl)))))
      · exact Or.inr (Or.inr (phaseDoneQ_step s i _ hd3 (Or.inl (Or.inr (Or.inl rfl)))))
  | readLstStep i t hg hpc =>
      refine ⟨timesOk_set lst0 delay s.ts i t _ hg rfl htimes, ?_⟩
      rcases hphase with hr | hw2 | hd3
      · refine Or.inl (phaseRacing_step lst0 s i _ hr (Or.inr (Or.inr (Or.inl rfl))) ?_)
        intro _
        exact hr.2.2.1
      · exact Or.inr (Or.inl (phaseWon_step_other lst0 s i t _ hg hw2 (Or.inr (Or.inl hpc))
          (Or.inl (Or.inr (Or.inr (Or.inl rfl))))))
      · exact Or.inr (Or.inr (phaseDoneQ_step s i _ hd3
          (Or.inl (Or.inr (Or.inr (Or.inl rfl))))))
  | deltaEarly i t hg hpc hd =>
      refine ⟨timesOk_set lst0 delay s.ts i t _ hg rfl htimes, ?_⟩
      rcases hphase with hr | hw2 | hd3
      · exfalso
        have hmem := List.getElem?_mem hg
        obtain ⟨hta, htb⟩ := htimes t hmem
        have hlst0 : t.lst = lst0 := (hr.2.2.2.2 t hmem).2 (Or.inl hpc)
        have hok := fastPathElapsedOk_of lst0 delay t.time hta htb
        rw [hlst0, hok] at hd
        exact absurd hd (by decide)
      · exact Or.inr (Or.inl (phaseWon_step_other lst0 s i t _ hg hw2
          (Or.inr (Or.inr (Or.inl hpc))) (Or.inr rfl)))
      · exact Or.inr (Or.inr (phaseDoneQ_step s i _ hd3 (Or.inr rfl)))
  | deltaOk i t hg hpc hd =>
      refine ⟨timesOk_set lst0 delay s.ts i t _ hg rfl htimes, ?_⟩
      rcases hphase with hr | hw2 | hd3
      · refine Or.inl (phaseRacing_step lst0 s i _ hr (Or.inr (Or.inr (Or.inr rfl))) ?_)
        intro _
        exact (hr.2.2.2.2 t (List.getElem?_mem hg)).2 (Or.inl hpc)
      · exact Or.inr (Or.inl (phaseWon_step_other lst0 s i t _ hg hw2
          (Or.inr (Or.inr (Or.inl hpc))) (Or.inl (Or.inr (Or.inr (Or.inr rfl))))))
      · exact Or.inr (Or.inr (phaseDoneQ_step s i _ hd3
          (Or.inl (Or.inr (Or.inr (Or.inr rfl))))))
  | incFail i t hg hpc hc =>
      refine ⟨timesOk_set lst0 delay s.ts i t _ hg rfl htimes, ?_⟩
      rcases hphase with hr | hw2 | hd3
      · exfalso
        rw [hr.1] at hc
        exact absurd hc (by decide)
      · exact Or.inr (Or.inl (phaseWon_step_other lst0 s i t _ hg hw2
          (Or.inr (Or.inr (Or.inr hpc))) (Or.inr rfl)))
      · exact Or.inr (Or.inr (phaseDoneQ_step s i _ hd3 (Or.inr rfl)))
  | incWin i t hg hpc hc =>
      refine ⟨timesOk_set lst0 delay s.ts i t _ hg rfl htimes, ?_⟩
      rcases hphase with hr | hw2 | hd3
      · obtain ⟨hwc0, hwf, hlst0, hq0, hall⟩ := hr
        refine Or.inr (Or.inl ⟨?_, hq0, i, { t with pc := HandlerPC.checkStale },
          ?_, ?_, ?_⟩)
        · show s.workCount + 1 = 1
          omega
        · exact List.getElem?_set_eq_of_lt _ (getElem?_lt s.ts i t hg)
        · refine Or.inl ⟨rfl, ?_, hlst0, hwf⟩
          exact (hall t (List.getElem?_mem hg)).2 (Or.inr hpc)
        · intro j tj hji hj
          rw [List.getElem?_set_ne (Ne.symm hji)] at hj
          exact Or.inl (hall tj (List.getElem?_mem hj)).1
      · exact absurd hw2.1 hc
      · exact absurd hd3.1 hc
  | staleHit i t hg hpc hs =>
      refine ⟨timesOk_set lst0 delay s.ts i t _ hg rfl htimes, ?_⟩
      exfalso
      rcases hphase with hr | hw2 | hd3
      · exact absurd (hr.2.2.2.2 t (List.getElem?_mem hg)).1
          (not_pre_of_pc_eq t HandlerPC.checkStale hpc (by decide) (by decide)
            (by decide) (by decide))
      · obtain ⟨hwc, hq, w, tw, hgw, hwin, hoth⟩ := hw2
        by_cases hiw : i = w
        · subst hiw
          rw [hg] at hgw
          cases hgw
          rcases hwin with ⟨h1, h2, h3, _⟩ | ⟨h1, _⟩ | ⟨h1, _⟩ | ⟨h1, _⟩
          · exact hs (h2.trans h3.symm)
          · rw [hpc] at h1
            exact absurd h1 (by decide)
          · rw [hpc] at h1
            exact absurd h1 (by decide)
          · rw [hpc] at h1
            exact absurd h1 (by decide)
        · exact absurd (hoth i t hiw hg)
            (not_loser_of_pc_eq t HandlerPC.checkStale hpc (by decide) (by decide)
              (by decide) (by decide) (by decide))
      · exact absurd (hd3.2.2.2 t (List.getElem?_mem hg))
          (not_loser_of_pc_eq t HandlerPC.checkStale hpc (by decide) (by decide)
            (by decide) (by decide) (by decide))
  | staleMiss i t hg hpc hs =>
      refine ⟨timesOk_set lst0 delay s.ts i t _ hg rfl htimes, ?_⟩
      rcases hphase with hr | hw2 | hd3
      · exact absurd (hr.2.2.2.2 t (List.getElem?_mem hg)).1
          (not_pre_of_pc_eq t HandlerPC.checkStale hpc (by decide) (by decide)
            (by decide) (by decide))
      · obtain ⟨hwc, hq, w, tw, hgw, hwin, hoth⟩ := hw2
        by_cases hiw : i = w
        · subst hiw
          rw [hg] at hgw
          cases hgw
          rcases hwin with ⟨h1, h2, h3, h4⟩ | ⟨h1, _⟩ | ⟨h1, _⟩ | ⟨h1, _⟩
          · refine Or.inr (Or.inl ⟨hwc, hq, i, { t with pc := HandlerPC.writeLst },
              ?_, ?_, ?_⟩)
            · exact List.getElem?_set_eq_of_lt _ (getElem?_lt s.ts i t hg)
            · exact Or.inr (Or.inl ⟨rfl, h3, h4⟩)
            · intro j tj hji hj
              rw [List.getElem?_set_ne (Ne.symm hji)] at hj
              exact hoth j tj hji hj
          · rw [hpc] at h1
            exact absurd h1 (by decide)
          · rw [hpc] at h1
            exact absurd h1 (by decide)
          · rw [hpc] at h1
            exact absurd h1 (by decide)
        · exact absurd (hoth i t hiw hg)
            (not_loser_of_pc_eq t HandlerPC.checkStale hpc (by decide) (by decide)
              (by decide) (by decide) (by decide))
      · exact absurd (hd3.2.2.2 t (List.getElem?_mem hg))
          (not_loser_of_pc_eq t HandlerPC.checkStale hpc (by decide) (by decide)
            (by decide) (by decide) (by decide))
  | resetStep i t hg hpc =>
      refine ⟨timesOk_set lst0 delay s.ts i t _ hg rfl htimes, ?_⟩
      exfalso
      rcases hphase with hr | hw2 | hd3
      · exact absurd (hr.2.2.2.2 t (List.getElem?_mem hg)).1
          (not_pre_of_pc_eq t HandlerPC.resetCnt hpc (by decide) (by decide)
            (by decide) (by decide))
      · obtain ⟨hwc, hq, w, tw, hgw, hwin, hoth⟩ := hw2
        by_cases hiw : i = w
        · subst hiw
          rw [hg] at hgw
          cases hgw
          rcases hwin with ⟨h1, _⟩ | ⟨h1, _⟩ | ⟨h1, _⟩ | ⟨h1, _⟩ <;>
            rw [hpc] at h1 <;> exact absurd h1 (by decide)
        · exact absurd (hoth i t hiw hg)
            (not_loser_of_pc_eq t HandlerPC.resetCnt hpc (by decide) (by decide)
              (by decide) (by decide) (by decide))
      · exact absurd (hd3.2.2.2 t (List.getElem?_mem hg))
          (not_loser_of_pc_eq t HandlerPC.resetCnt hpc (by decide) (by decide)
            (by decide) (by decide) (by decide))
  | writeLstStep i t hg hpc =>
      refine ⟨timesOk_set lst0 delay s.ts i t _ hg rfl htimes, ?_⟩
      rcases hphase with hr | hw2 | hd3
      · exact absurd (hr.2.2.2.2 t (List.getElem?_mem hg)).1
          (not_pre_of_pc_eq t HandlerPC.writeLst hpc (by decide) (by decide)
            (by decide) (by decide))
      · obtain ⟨hwc, hq, w, tw, hgw, hwin, hoth⟩ := hw2
        by_cases hiw : i = w
        · subst hiw
          rw [hg] at hgw
          cases hgw
          rcases hwin with ⟨h1, _⟩ | ⟨h1, h3, h4⟩ | ⟨h1, _⟩ | ⟨h1, _⟩
          · rw [hpc] at h1
            exact absurd h1 (by decide)
          · refine Or.inr (Or.inl ⟨hwc, hq, i, { t with pc := HandlerPC.setWip },
              ?_, ?_, ?_⟩)
            · exact List.getElem?_set_eq_of_lt _ (getElem?_lt s.ts i t hg)
            · exact Or.inr (Or.inr (Or.inl ⟨rfl, rfl, h4⟩))
            · intro j tj hji hj
              rw [List.getElem?_set_ne (Ne.symm hji)] at hj
              exact hoth j tj hji hj
          · rw [hpc] at h1
            exact absurd h1 (by decide)
          · rw [hpc] at h1
            exact absurd h1 (by decide)
        · exact absurd (hoth i t hiw hg)
            (not_loser_of_pc_eq t HandlerPC.writeLst hpc (by decide) (by decide)
              (by decide) (by decide) (by decide))
      · exact absurd (hd3.2.2.2 t (List.getElem?_mem hg))
          (not_loser_of_pc_eq t HandlerPC.writeLst hpc (by decide) (by decide)
            (by decide) (by decide) (by decide))
  | setWipStep i t hg hpc =>
      refine ⟨timesOk_set lst0 delay s.ts i t _ hg rfl htimes, ?_⟩
      rcases hphase with hr | hw2 | hd3
      · exact absurd (hr.2.2.2.2 t (List.getElem?_mem hg)).1
          (not_pre_of_pc_eq t HandlerPC.setWip hpc (by decide) (by decide)
            (by decide) (by decide))
      · obtain ⟨hwc, hq, w, tw, hgw, hwin, hoth⟩ := hw2
        by_cases hiw : i = w
        · subst hiw
          rw [hg] at hgw
          cases hgw
          rcases hwin with ⟨h1, _⟩ | ⟨h1, _⟩ | ⟨h1, h3, h4⟩ | ⟨h1, _⟩
          · rw [hpc] at h1
            exact absurd h1 (by decide)
          · rw [hpc] at h1
            exact absurd h1 (by decide)
          · refine Or.inr (Or.inl ⟨hwc, hq, i, { t with pc := HandlerPC.queueWork },
              ?_, ?_, ?_⟩)
            · exact List.getElem?_set_eq_of_lt _ (getElem?_lt s.ts i t hg)
            · exact Or.inr (Or.inr (Or.inr ⟨rfl, h3, rfl⟩))
            · intro j tj hji hj
              rw [List.getElem?_set_ne (Ne.symm hji)] at hj
              exact hoth j tj hji hj
          · rw [hpc] at h1
            exact absurd h1 (by decide)
        · exact absurd (hoth i t hiw hg)
            (not_loser_of_pc_eq t HandlerPC.setWip hpc (by decide) (by decide)
              (by decide) (by decide) (by decide))
      · exact absurd (hd3.2.2.2 t (List.getElem?_mem hg))
          (not_loser_of_pc_eq t HandlerPC.setWip hpc (by decide) (by decide)
            (by decide) (by decide) (by decide))
  | queueStep i t hg hpc =>
      refine ⟨timesOk_set lst0 delay s.ts i t _ hg rfl htimes, ?_⟩
      rcases hphase with hr | hw2 | hd3
      · exact absurd (hr.2.2.2.2 t (List.getElem?_mem hg)).1
          (not_pre_of_pc_eq t HandlerPC.queueWork hpc (by decide) (by decide)
            (by decide) (by decide))
      · obtain ⟨hwc, hq, w, tw, hgw, hwin, hoth⟩ := hw2
        by_cases hiw : i = w
        · subst hiw
          rw [hg] at hgw
          cases hgw
          rcases hwin with ⟨h1, _⟩ | ⟨h1, _⟩ | ⟨h1, _⟩ | ⟨h1, h3, h4⟩
          · rw [hpc] at h1
            exact absurd h1 (by decide)
          · rw [hpc] at h1
            exact absurd h1 (by decide)
          · rw [hpc] at h1
            exact absurd h1 (by decide)
          · refine Or.inr (Or.inr ⟨hwc, ?_, h4, ?_⟩)
            · show s.queued + 1 = 1
              omega
            · exact losers_all_set s.ts i _ hoth (Or.inr rfl)
        · exact absurd (hoth i t hiw hg)
            (not_loser_of_pc_eq t HandlerPC.queueWork hpc (by decide) (by decide)
              (by decide) (by decide) (by decide))
      · exact absurd (hd3.2.2.2 t (List.getElem?_mem hg))
          (not_loser_of_pc_eq t HandlerPC.queueWork hpc (by decide) (by decide)
            (by decide) (by decide) (by decide))

lemma triggerReach_inv (lst0 delay : Nat) (s0 s : TriggerState)
    (h0 : triggerInv lst0 delay s0) (hr : TriggerReach delay s0 s) :
    triggerInv lst0 delay s := by
  have hr' : Relation.ReflTransGen (TriggerStep delay) s0 s := hr
  clear hr
  induction hr' with
  | refl => exact h0
  | tail _ hstep ih => exact triggerStep_inv lst0 delay hstep ih

lemma triggerInit_inv (times : List Nat) (lst0 delay : Nat)
    (H : ∀ tm ∈ times, lst0 + delay ≤ tm ∧ tm < 2 ^ 63) :
    triggerInv lst0 delay (triggerInit times lst0) := by
  refine ⟨?_, Or.inl ⟨rfl, rfl, rfl, rfl, ?_⟩⟩
  · intro t ht
    simp only [triggerInit, List.mem_map] at ht
    rcases ht with ⟨tm, htm, rfl⟩
    exact H tm htm
  · intro t ht
    simp only [triggerInit, List.mem_map] at ht
    rcases ht with ⟨tm, htm, rfl⟩
    exact ⟨Or.inl rfl, lstHolds_irrel lst0 _ (by intro h; simp at h) (by intro h; simp at h)⟩

lemma triggerStep_length {delay : Nat} {s s' : TriggerState}
    (h : TriggerStep delay s s') : s'.ts.length = s.ts.length := by
  cases h <;> simp

lemma triggerReach_length {delay : Nat} {s0 s : TriggerState}
    (h : TriggerReach delay s0 s) : s.ts.length = s0.ts.length := by
  have h' : Relation.ReflTransGen (TriggerStep delay) s0 s := h
  clear h
  induction h' with
  | refl => rfl
  | tail _ hstep ih => rw [triggerStep_length hstep, ih]

/-- C3: on a shared policy domain whose processors concurrently invoke
the fast-path handler within the same sampling window (work not in
progress, every timestamp at least the sample delay beyond
`last_sample_time`), every interleaving queues at most one escalation,
and once every invocation has returned exactly one escalation has been
queued (for a non-empty processor set): the escalation counter is
atomically incremented only if below the cap of 1, so only the first
caller wins and losers return immediately; a winner that observes
`last_sample_time` changed since its earlier read resets the counter to
0 and returns without escalating (the `staleHit`/`resetStep`
transitions of the model). -/
theorem fastpath_escalates_exactly_once (times : List Nat) (lst0 delay : Nat)
    (hne : times ≠ [])
    (H : ∀ tm ∈ times, lst0 + delay ≤ tm ∧ tm < 2 ^ 63) :
    (∀ s, TriggerReach delay (triggerInit times lst0) s → s.queued ≤ 1) ∧
    (∀ s, TriggerReach delay (triggerInit times lst0) s →
      (∀ t ∈ s.ts, t.pc = HandlerPC.done) → s.queued = 1) := by
  have hinv : ∀ s, TriggerReach delay (triggerInit times lst0) s →
      triggerInv lst0 delay s :=
    fun s hr => triggerReach_inv lst0 delay _ s (triggerInit_inv times lst0 delay H) hr
  constructor
  · intro s hr
    rcases (hinv s hr).2 with h | h | h
    · rcases h with ⟨_, _, _, hq, _⟩
      omega
    · rcases h with ⟨_, hq, _⟩
      omega
    · rcases h with ⟨_, hq, _, _⟩
      omega
  · intro s hr hdone
    have hlen : s.ts.length = times.length := by
      have h2 := triggerReach_length hr
      simpa [triggerInit] using h2
    rcases (hinv s hr).2 with h | h | h
    · obtain ⟨_, _, _, _, hall⟩ := h
      have hne2 : s.ts ≠ [] := by
        intro hnil
        rw [hnil] at hlen
        exact hne (List.length_eq_zero.mp hlen.symm)
      obtain ⟨t, ht⟩ := List.exists_mem_of_ne_nil s.ts hne2
      exact absurd (hall t ht).1
        (not_pre_of_pc_eq t HandlerPC.done (hdone t ht) (by decide) (by decide)
          (by decide) (by decide))
    · obtain ⟨_, _, w, tw, hgw, hwin, _⟩ := h
      have hd := hdone tw (List.getElem?_mem hgw)
      rcases hwin with ⟨h1, _⟩ | ⟨h1, _⟩ | ⟨h1, _⟩ | ⟨h1, _⟩ <;> rw [hd] at h1 <;>
        exact absurd h1 (by decide)
    · exact h.2.1

/-- A concrete interleaving on a two-processor domain: processor 0 runs
the handler to completion (winning the escalation race and queueing the
work), then processor 1 sees `work_in_progress` and returns. -/
lemma traceReach : TriggerReach 5 (triggerInit [12, 12] 0) traceFinal := by
  have s1 : TriggerStep 5 (triggerInit [12, 12] 0) trS1 :=
    TriggerStep.wipClear (triggerInit [12, 12] 0) 0 ⟨HandlerPC.start, 0, 12⟩ rfl rfl rfl
  have s2 : TriggerStep 5 trS1 trS2 :=
    TriggerStep.readLstStep trS1 0 ⟨HandlerPC.readLst, 0, 12⟩ rfl rfl
  have s3 : TriggerStep 5 trS2 trS3 :=
    TriggerStep.deltaOk trS2 0 ⟨HandlerPC.checkDelta, 0, 12⟩ rfl rfl (by decide)
  have s4 : TriggerStep 5 trS3 trS4 :=
    TriggerStep.incWin trS3 0 ⟨HandlerPC.tryInc, 0, 12⟩ rfl rfl (by decide)
  have s5 : TriggerStep 5 trS4 trS5 :=
    TriggerStep.staleMiss trS4 0 ⟨HandlerPC.checkStale, 0, 12⟩ rfl rfl rfl
  have s6 : TriggerStep 5 trS5 trS6 :=
    TriggerStep.writeLstStep trS5 0 ⟨HandlerPC.writeLst, 0, 12⟩ rfl rfl
  have s7 : TriggerStep 5 trS6 trS7 :=
    TriggerStep.setWipStep trS6 0 ⟨HandlerPC.setWip, 0, 12⟩ rfl rfl
  have s8 : TriggerStep 5 trS7 trS8 :=
    TriggerStep.queueStep trS7 0 ⟨HandlerPC.queueWork, 0, 12⟩ rfl rfl
  have s9 : TriggerStep 5 trS8 traceFinal :=
    TriggerStep.wipBusy trS8 1 ⟨HandlerPC.start, 0, 12⟩ rfl rfl rfl
  exact (((((((Relation.ReflTransGen.single s1).tail s2).tail s3).tail s4).tail
    s5).tail s6).tail s7).tail s8 |>.tail s9

/-- Witness for C3: in the concrete two-processor interleaving of
`traceReach` both invocations have returned and exactly one escalation
was queued. -/
theorem fastpath_escalates_exactly_once_witness : traceFinal.queued = 1 :=
  (fastpath_escalates_exactly_once [12, 12] 0 5 (by decide) (by decide)).2
    traceFinal traceReach (by decide)

end CpufreqGov
